import Mathlib

/-!
Verification of the sectioning core of the descriptive-geometry repository
(`src/utils/sectionPlane.ts`).

The mesh pipeline (plane-triangle intersector, segment deduplicator, loop
assembler, view projector) is embedded over `ℚ`, since it only uses field
operations and comparisons; `distanceTo p < tolerance` comparisons are
embedded as squared-distance comparisons `dist2 < tolerance ^ 2`, which is
equivalent for the positive tolerances the source uses.  The analytic
cylinder solver uses `Math.sqrt`/`Math.cos`/`Math.sin`, so it is embedded
over `ℝ` with `Real.sqrt`/`Real.cos`/`Real.sin`.

JavaScript `while` loops in the loop assembler are embedded with an explicit
fuel argument; a fuel of `segments.length` is provably sufficient because
every iteration of the source loops consumes at least one previously unused
segment index.
-/

namespace SectionPlane

/-- 3D vector (`THREE.Vector3`), coordinates in `α` (`ℚ` for the exact mesh
pipeline, `ℝ` for the trigonometric cylinder solver). -/
structure Vec3 (α : Type) where
  x : α
  y : α
  z : α
deriving DecidableEq

namespace Vec3

variable {α : Type} [Field α]

/-- `THREE.Vector3.add` / `addVectors`. -/
def add (a b : Vec3 α) : Vec3 α := ⟨a.x + b.x, a.y + b.y, a.z + b.z⟩

/-- `THREE.Vector3.sub` / `subVectors`. -/
def sub (a b : Vec3 α) : Vec3 α := ⟨a.x - b.x, a.y - b.y, a.z - b.z⟩

/-- `THREE.Vector3.multiplyScalar c`. -/
def smul (c : α) (a : Vec3 α) : Vec3 α := ⟨c * a.x, c * a.y, c * a.z⟩

/-- `THREE.Vector3.dot`. -/
def dot (a b : Vec3 α) : α := a.x * b.x + a.y * b.y + a.z * b.z

/-- `THREE.Vector3.crossVectors`. -/
def cross (a b : Vec3 α) : Vec3 α :=
  ⟨a.y * b.z - a.z * b.y, a.z * b.x - a.x * b.z, a.x * b.y - a.y * b.x⟩

/-- Squared Euclidean distance; `a.distanceTo b < tol` in the source is
embedded as `dist2 a b < tol ^ 2` (equivalent for `0 < tol`). -/
def dist2 (a b : Vec3 α) : α := dot (sub a b) (sub a b)

/-- `THREE.Vector3.lerpVectors a b t = a + t * (b - a)`. -/
def lerp (a b : Vec3 α) (t : α) : Vec3 α := add a (smul t (sub b a))

end Vec3

/-- The `curveType` tag of `SectionResult` (sectionPlane.ts line 25). -/
inductive CurveType
  | polygon
  | ellipse
  | parabola
  | hyperbola
  | circle
deriving DecidableEq

/-- `SectionLoop` (sectionPlane.ts lines 15-18). -/
structure SectionLoop (α : Type) where
  points : List (Vec3 α)
  isClosed : Bool
deriving DecidableEq

/-- The `ellipseParams` payload (sectionPlane.ts lines 27-33). -/
structure EllipseParams (α : Type) where
  center : Vec3 α
  majorAxis : Vec3 α
  minorAxis : Vec3 α
  majorRadius : α
  minorRadius : α
deriving DecidableEq

/-- `SectionResult` (sectionPlane.ts lines 21-34).  Every code path of the
embedded functions assigns `curveType`, so it is embedded non-optional. -/
structure SectionResult (α : Type) where
  points3D : List (Vec3 α)
  loops : List (SectionLoop α)
  isClosed : Bool
  curveType : CurveType
  ellipseParams : Option (EllipseParams α)
deriving DecidableEq

/-- The `1e-10` epsilon of `processTriangle` (lines 239, 247, 255). -/
def eps10 : ℚ := 1e-10

/-- The `tolerance = 1e-4` of `connectSegmentsToLoops` (line 305). -/
def tolQ : ℚ := 1e-4

/-- Zero vector, used as a harmless default for total list indexing. -/
def dfltPt : Vec3 ℚ := ⟨0, 0, 0⟩

/-- A section segment: a pair of endpoints. -/
abbrev Seg := Vec3 ℚ × Vec3 ℚ

def dfltSeg : Seg := (dfltPt, dfltPt)

instance : Inhabited (Vec3 ℚ) := ⟨dfltPt⟩

/-- Signed distance of a vertex to the plane:
`new THREE.Vector3().subVectors(v, planePoint).dot(planeNormal)` (lines 228-230). -/
def sDist (v planePoint planeNormal : Vec3 ℚ) : ℚ :=
  Vec3.dot (Vec3.sub v planePoint) planeNormal

/-- Edge v1-v2 of `processTriangle` (lines 236-241). -/
def triStep1 (d1 d2 : ℚ) (v1 v2 : Vec3 ℚ) : List (Vec3 ℚ) :=
  if d1 * d2 < 0 then [Vec3.lerp v1 v2 (d1 / (d1 - d2))]
  else if |d1| < eps10 then [v1]
  else []

/-- Edge v2-v3 of `processTriangle` (lines 244-249); note the
`intersections.length === 0` guard on the on-plane branch. -/
def triStep2 (acc : List (Vec3 ℚ)) (d2 d3 : ℚ) (v2 v3 : Vec3 ℚ) : List (Vec3 ℚ) :=
  if d2 * d3 < 0 then acc ++ [Vec3.lerp v2 v3 (d2 / (d2 - d3))]
  else if |d2| < eps10 ∧ acc.length = 0 then acc ++ [v2]
  else acc

/-- Edge v3-v1 of `processTriangle` (lines 252-257); the on-plane branch is
guarded by `intersections.length < 2`. -/
def triStep3 (acc : List (Vec3 ℚ)) (d3 d1 : ℚ) (v3 v1 : Vec3 ℚ) : List (Vec3 ℚ) :=
  if d3 * d1 < 0 then acc ++ [Vec3.lerp v3 v1 (d3 / (d3 - d1))]
  else if |d3| < eps10 ∧ acc.length < 2 then acc ++ [v3]
  else acc

/-- The `intersections` list collected by `processTriangle` (lines 233-257). -/
def triangleIntersections (v1 v2 v3 planePoint planeNormal : Vec3 ℚ) : List (Vec3 ℚ) :=
  triStep3
    (triStep2 (triStep1 (sDist v1 planePoint planeNormal) (sDist v2 planePoint planeNormal) v1 v2)
      (sDist v2 planePoint planeNormal) (sDist v3 planePoint planeNormal) v2 v3)
    (sDist v3 planePoint planeNormal) (sDist v1 planePoint planeNormal) v3 v1

/-- `processTriangle` (lines 222-263): emit a segment iff exactly two
intersection points were collected (line 260). -/
def processTriangle (v1 v2 v3 planePoint planeNormal : Vec3 ℚ) : Option Seg :=
  match triangleIntersections v1 v2 v3 planePoint planeNormal with
  | [p, q] => some (p, q)
  | _ => none

/-- `findOrAddPoint` inside `deduplicateSegments` (lines 559-568): linear scan
of the unique-point list, first match within tolerance wins, otherwise the
point is appended as a new unique point. -/
def findOrAddPoint (tolerance : ℚ) (uniquePoints : List (Vec3 ℚ)) (p : Vec3 ℚ) :
    Vec3 ℚ × List (Vec3 ℚ) :=
  match uniquePoints.find? (fun up => decide (Vec3.dist2 up p < tolerance ^ 2)) with
  | some up => (up, uniquePoints)
  | none => (p, uniquePoints ++ [p])

/-- Body of the `for` loop of `deduplicateSegments` (lines 573-581), with the
mutable `uniquePoints` list threaded explicitly. -/
def dedupAux (tolerance : ℚ) : List Seg → List (Vec3 ℚ) → List Seg
  | [], _ => []
  | (p1, p2) :: rest, uniquePoints =>
    let r1 := findOrAddPoint tolerance uniquePoints p1
    let r2 := findOrAddPoint tolerance r1.2 p2
    if r1.1 = r2.1 then dedupAux tolerance rest r2.2
    else (r1.1, r2.1) :: dedupAux tolerance rest r2.2

/-- `deduplicateSegments` (lines 552-584). -/
def deduplicateSegments (segments : List Seg) (tolerance : ℚ) : List Seg :=
  dedupAux tolerance segments []

/-- JavaScript `Math.round`: round half toward positive infinity. -/
def jsRound (q : ℚ) : ℤ := ⌊q + 1 / 2⌋

/-- Quantized point key; the source's string key
`round(x/tol),round(y/tol),round(z/tol)` is embedded as the integer triple
(string equality coincides with triple equality). -/
abbrev Key := ℤ × ℤ × ℤ

/-- `pointKey` (lines 315-317). -/
def pointKey (tolerance : ℚ) (p : Vec3 ℚ) : Key :=
  (jsRound (p.x / tolerance), jsRound (p.y / tolerance), jsRound (p.z / tolerance))

/-- One pass of the `for (const segIdx of connectedSegs)` search (lines
359-381): the first unused segment incident (by quantized key) to the current
chain end.  The adjacency buckets of the source list segment indices in
increasing order, so scanning all segments in index order is equivalent. -/
def findContAux (used : List ℕ) (k : Key) : List Seg → ℕ → Option (ℕ × Vec3 ℚ × Key)
  | [], _ => none
  | seg :: rest, i =>
    if i ∉ used ∧ (pointKey tolQ seg.1 = k ∨ pointKey tolQ seg.2 = k) then
      if pointKey tolQ seg.1 = k then some (i, seg.2, pointKey tolQ seg.2)
      else some (i, seg.1, pointKey tolQ seg.1)
    else findContAux used k rest (i + 1)

def findCont (segs : List Seg) (used : List ℕ) (k : Key) : Option (ℕ × Vec3 ℚ × Key) :=
  findContAux used k segs 0

/-- Forward trace (`while (found)`, lines 357-382), fuelled; each step appends
the far endpoint of the chosen segment and marks it used. -/
def traceF (segs : List Seg) : ℕ → List ℕ → Key → List (Vec3 ℚ) → List (Vec3 ℚ) × List ℕ
  | 0, used, _, acc => (acc, used)
  | fuel + 1, used, k, acc =>
    match findCont segs used k with
    | none => (acc, used)
    | some (i, p, k2) => traceF segs fuel (i :: used) k2 (acc ++ [p])

/-- Backward trace (lines 388-413), fuelled; prepends instead of appending. -/
def traceB (segs : List Seg) : ℕ → List ℕ → Key → List (Vec3 ℚ) → List (Vec3 ℚ) × List ℕ
  | 0, used, _, acc => (acc, used)
  | fuel + 1, used, k, acc =>
    match findCont segs used k with
    | none => (acc, used)
    | some (i, p, k2) => traceB segs fuel (i :: used) k2 (p :: acc)

/-- `for (let i = 0; ...) if (!usedSegments.has(i))` (lines 337-342). -/
def firstUnused (segs : List Seg) (used : List ℕ) : Option ℕ :=
  (List.range segs.length).find? (fun i => decide (i ∉ used))

/-- One outer iteration of `connectSegmentsToLoops`, instrumented with the
number of segments consumed while building this (possibly later discarded)
loop. -/
structure TracedLoop where
  points : List (Vec3 ℚ)
  closed : Bool
  consumed : ℕ
deriving DecidableEq

/-- Seed a loop from segment `i` (lines 347-351) and run both traces. -/
def traceLoop (segs : List Seg) (used : List ℕ) (i : ℕ) : List (Vec3 ℚ) × List ℕ :=
  let seg := segs.getD i dfltSeg
  let r1 := traceF segs segs.length (i :: used) (pointKey tolQ seg.2) [seg.1, seg.2]
  traceB segs segs.length r1.2 (pointKey tolQ seg.1) r1.1

/-- Outer `while (usedSegments.size < deduplicatedSegments.length)` loop of
`connectSegmentsToLoops` (lines 334-431), fuelled, returning every traced
iteration (also those whose loop is discarded at line 425).  The closure test
and pop of the duplicated closing point are lines 416-422. -/
def buildLoops (segs : List Seg) : ℕ → List ℕ → List TracedLoop
  | 0, _ => []
  | fuel + 1, used =>
    match firstUnused segs used with
    | none => []
    | some i =>
      let r := traceLoop segs used i
      let closed := decide (2 < r.1.length) &&
        decide (Vec3.dist2 r.1.headI (r.1.getLastD dfltPt) < tolQ ^ 2)
      let pts := if closed then r.1.dropLast else r.1
      ⟨pts, closed, r.2.length - used.length⟩ :: buildLoops segs fuel r.2

/-- `connectSegmentsToLoops` (lines 302-434): deduplicate, assemble, keep only
loops with at least 3 points (line 425). -/
def connectSegmentsToLoops (segments : List Seg) : List (SectionLoop ℚ) :=
  if segments.isEmpty then []
  else
    let ds := deduplicateSegments segments tolQ
    if ds.isEmpty then []
    else
      (buildLoops ds ds.length []).filterMap fun t =>
        if 3 ≤ t.points.length then some ⟨t.points, t.closed⟩ else none

/-- Triple grouping of a flat buffer (`for (i = 0; i < count; i += 3)`). -/
def triples {β : Type} : List β → List (β × β × β)
  | a :: b :: c :: rest => (a, b, c) :: triples rest
  | _ => []

/-- The triangle stream of `calculateMeshSection` (lines 265-273): indexed
geometry reads vertex triples through the index buffer, non-indexed geometry
takes consecutive position triples. -/
def meshTriangles (positions : List (Vec3 ℚ)) (indices : Option (List ℕ)) :
    List (Vec3 ℚ × Vec3 ℚ × Vec3 ℚ) :=
  match indices with
  | some idx =>
    (triples idx).map fun t =>
      (positions.getD t.1 dfltPt, positions.getD t.2.1 dfltPt, positions.getD t.2.2 dfltPt)
  | none => triples positions

/-- The `segments` array accumulated by `calculateMeshSection` (lines 219-273). -/
def meshSegments (positions : List (Vec3 ℚ)) (indices : Option (List ℕ))
    (planePoint planeNormal : Vec3 ℚ) : List Seg :=
  (meshTriangles positions indices).filterMap fun t =>
    processTriangle t.1 t.2.1 t.2.2 planePoint planeNormal

/-- `calculateMeshSection` (lines 210-296). -/
def calculateMeshSection (positions : List (Vec3 ℚ)) (indices : Option (List ℕ))
    (planePoint planeNormal : Vec3 ℚ) : SectionResult ℚ :=
  let segments := meshSegments positions indices planePoint planeNormal
  if segments.isEmpty then ⟨[], [], false, CurveType.polygon, none⟩
  else
    let loops := connectSegmentsToLoops segments
    ⟨(loops.map fun l => l.points).flatten, loops,
      decide (0 < loops.length) && loops.all (fun l => l.isClosed),
      CurveType.polygon, none⟩

/-- The signed distances of all traversed triangle vertices, in traversal
order; used to state when the `1e-10` on-plane tests are insensitive to a
rescaling of the plane normal. -/
def vertexDistances (positions : List (Vec3 ℚ)) (indices : Option (List ℕ))
    (planePoint planeNormal : Vec3 ℚ) : List ℚ :=
  (meshTriangles positions indices).flatMap fun t =>
    [sDist t.1 planePoint planeNormal, sDist t.2.1 planePoint planeNormal,
      sDist t.2.2 planePoint planeNormal]

/-- The four orthographic view planes of `projectSectionToView`. -/
inductive ViewPlane
  | V
  | H
  | W
  | R
deriving DecidableEq

/-- `projectSectionToView` (lines 767-791). -/
def projectSectionToView (points3D : List (Vec3 ℚ)) (viewPlane : ViewPlane) :
    List (ℚ × ℚ) :=
  points3D.map fun p =>
    match viewPlane with
    | ViewPlane.V => (p.x, p.y)
    | ViewPlane.H => (p.x, -p.z)
    | ViewPlane.W => (-p.z, p.y)
    | ViewPlane.R => (p.z, p.y)

/-- Maximum of a list of rationals (0 for the empty list). -/
def listMax : List ℚ → ℚ
  | [] => 0
  | a :: rest => rest.foldl max a

/-- Minimum of a list of rationals (0 for the empty list). -/
def listMin : List ℚ → ℚ
  | [] => 0
  | a :: rest => rest.foldl min a

/-- max - min of a list of coordinates. -/
def extent (l : List ℚ) : ℚ := listMax l - listMin l

/-- x-extent of a 2D projection: max - min of the first output coordinate. -/
def xExtent (pts : List (ℚ × ℚ)) : ℚ := extent (pts.map Prod.fst)

/-- y-extent of a 2D projection: max - min of the second output coordinate. -/
def yExtent (pts : List (ℚ × ℚ)) : ℚ := extent (pts.map Prod.snd)

/-- `THREE.Vector3.normalize`: divide by the Euclidean length.  (For the zero
vector Lean's `1 / 0 = 0` yields the zero vector; no claim instantiates it.) -/
noncomputable def normalize (v : Vec3 ℝ) : Vec3 ℝ :=
  Vec3.smul (1 / Real.sqrt (Vec3.dot v v)) v

/-- `cosAngle = Math.abs(axisNormalized.dot(normalNormalized))`
(sectionPlane.ts lines 603-605). -/
noncomputable def cosAngleOf (cylinderAxis planeNormal : Vec3 ℝ) : ℝ :=
  |Vec3.dot (normalize cylinderAxis) (normalize planeNormal)|

/-- The circle branch of `calculateCylinderSection` (lines 608-640).  Note
line 614 subtracts the origin from `planePoint`, so `t` is
`planePoint . planeNormal / axisNormalized . planeNormal`, and line 616 takes
`center = axisNormalized * (-t)`. -/
noncomputable def circleSection (cylinderRadius : ℝ)
    (cylinderAxis planePoint planeNormal : Vec3 ℝ) : SectionResult ℝ :=
  let axisNormalized := normalize cylinderAxis
  let t := Vec3.dot planePoint planeNormal / Vec3.dot axisNormalized planeNormal
  let center := Vec3.smul (-t) axisNormalized
  let perpAxis1 :=
    if 0.99 < |Vec3.dot axisNormalized ⟨1, 0, 0⟩| then (⟨0, 0, 1⟩ : Vec3 ℝ) else ⟨1, 0, 0⟩
  let uAxis := normalize (Vec3.cross axisNormalized perpAxis1)
  let vAxis := normalize (Vec3.cross axisNormalized uAxis)
  let points := (List.range 64).map fun (i : ℕ) =>
    Vec3.add
      (Vec3.add center
        (Vec3.smul (Real.cos ((i : ℝ) / 64 * (Real.pi * 2)) * cylinderRadius) uAxis))
      (Vec3.smul (Real.sin ((i : ℝ) / 64 * (Real.pi * 2)) * cylinderRadius) vAxis)
  ⟨points, [⟨points, true⟩], true, CurveType.circle, none⟩

/-- The ellipse branch of `calculateCylinderSection` (lines 653-690). -/
noncomputable def ellipseSection (cylinderRadius : ℝ)
    (cylinderAxis planePoint planeNormal : Vec3 ℝ) : SectionResult ℝ :=
  let axisNormalized := normalize cylinderAxis
  let cosAngle := cosAngleOf cylinderAxis planeNormal
  let sinAngle := Real.sqrt (1 - cosAngle * cosAngle)
  let majorRadius := cylinderRadius / sinAngle
  let minorRadius := cylinderRadius
  let center := planePoint
  let majorAxis := normalize (Vec3.cross planeNormal axisNormalized)
  let minorAxis := normalize (Vec3.cross planeNormal majorAxis)
  let points := (List.range 64).map fun (i : ℕ) =>
    Vec3.add
      (Vec3.add center
        (Vec3.smul (Real.cos ((i : ℝ) / 64 * (Real.pi * 2)) * majorRadius) majorAxis))
      (Vec3.smul (Real.sin ((i : ℝ) / 64 * (Real.pi * 2)) * minorRadius) minorAxis)
  ⟨points, [⟨points, true⟩], true, CurveType.ellipse,
    some ⟨center, majorAxis, minorAxis, majorRadius, minorRadius⟩⟩

/-- `calculateCylinderSection` (lines 595-691): circle for `cosAngle > 0.999`,
empty polygon fallback for `cosAngle < 0.001`, ellipse otherwise. -/
noncomputable def calculateCylinderSection (cylinderRadius : ℝ) (_cylinderHeight : ℝ)
    (cylinderAxis planePoint planeNormal : Vec3 ℝ) : SectionResult ℝ :=
  if 0.999 < cosAngleOf cylinderAxis planeNormal then
    circleSection cylinderRadius cylinderAxis planePoint planeNormal
  else if cosAngleOf cylinderAxis planeNormal < 0.001 then
    ⟨[], [], false, CurveType.polygon, none⟩
  else
    ellipseSection cylinderRadius cylinderAxis planePoint planeNormal

/-- Specification-side reference point for C1: the intersection of the
cylinder axis (the line through the origin with direction
`normalize cylinderAxis`) with the cutting plane.  Solving
`(s * axisN - planePoint) . normal = 0` gives
`s = planePoint . normal / (axisN . normal)`. -/
noncomputable def planeAxisIntersectionSpec (cylinderAxis planePoint planeNormal : Vec3 ℝ) :
    Vec3 ℝ :=
  Vec3.smul (Vec3.dot planePoint planeNormal / Vec3.dot (normalize cylinderAxis) planeNormal)
    (normalize cylinderAxis)

end SectionPlane

namespace SectionPlane

/-! ### Helper lemmas -/

lemma mem_connectSegmentsToLoops_length (segments : List Seg) (l : SectionLoop ℚ)
    (hl : l ∈ connectSegmentsToLoops segments) : 3 ≤ l.points.length := by
  unfold connectSegmentsToLoops at hl
  split at hl
  · simp at hl
  · dsimp only at hl
    split at hl
    · simp at hl
    · rw [List.mem_filterMap] at hl
      obtain ⟨t, _, ht⟩ := hl
      split at ht
      · cases ht
        simpa using ‹3 ≤ t.points.length›
      · cases ht

/-! ### C2: on-plane vertex recording discipline -/

/-- Concrete triangle for C2: vertex distances (0, 0, 1) to the plane z = 0. -/
abbrev c2v1 : Vec3 ℚ := ⟨0, 0, 0⟩
abbrev c2v2 : Vec3 ℚ := ⟨1, 0, 0⟩
abbrev c2v3 : Vec3 ℚ := ⟨0, 0, 1⟩
abbrev c2pp : Vec3 ℚ := ⟨0, 0, 0⟩
abbrev c2n : Vec3 ℚ := ⟨0, 0, 1⟩

abbrev c2I1 : List (Vec3 ℚ) :=
  triStep1 (sDist c2v1 c2pp c2n) (sDist c2v2 c2pp c2n) c2v1 c2v2

abbrev c2I2 : List (Vec3 ℚ) :=
  triStep2 c2I1 (sDist c2v2 c2pp c2n) (sDist c2v3 c2pp c2n) c2v2 c2v3

/-- C2 counterexample: for the triangle (0,0,0), (1,0,0), (0,0,1) against the
plane z = 0, edge v2-v3 does not cross the plane, v2 lies on the plane
(|d2| = 0 < 1e-10) and only one intersection point has been recorded so far
(fewer than 2), yet v2 is NOT recorded: the code requires exactly zero
recorded points at edge v2-v3, refuting the claimed "fewer than 2" rule. -/
theorem C2_counterexample :
    ¬ sDist c2v2 c2pp c2n * sDist c2v3 c2pp c2n < 0 ∧
    |sDist c2v2 c2pp c2n| < eps10 ∧
    c2I1.length < 2 ∧
    c2I2 ≠ c2I1 ++ [c2v2] := by with_unfolding_all decide

/-- Claim C2 (amended): in `processTriangle`, an on-plane vertex (distance
within 1e-10, edge not strictly crossing) is recorded unconditionally at edge
v1-v2 (where the count is necessarily 0), recorded at edge v2-v3 if and only
if zero intersection points have been recorded so far, and recorded at edge
v3-v1 if and only if fewer than 2 intersection points have been recorded so
far. -/
theorem C2_on_plane_vertex_recording (d1 d2 d3 : ℚ) (v1 v2 v3 : Vec3 ℚ) :
    (¬ d1 * d2 < 0 → |d1| < eps10 → triStep1 d1 d2 v1 v2 = [v1]) ∧
    (¬ d2 * d3 < 0 → |d2| < eps10 →
      (triStep2 (triStep1 d1 d2 v1 v2) d2 d3 v2 v3 = triStep1 d1 d2 v1 v2 ++ [v2] ↔
        (triStep1 d1 d2 v1 v2).length = 0)) ∧
    (¬ d3 * d1 < 0 → |d3| < eps10 →
      (triStep3 (triStep2 (triStep1 d1 d2 v1 v2) d2 d3 v2 v3) d3 d1 v3 v1 =
          triStep2 (triStep1 d1 d2 v1 v2) d2 d3 v2 v3 ++ [v3] ↔
        (triStep2 (triStep1 d1 d2 v1 v2) d2 d3 v2 v3).length < 2)) := by
  refine ⟨?_, ?_, ?_⟩
  · intro hno hon
    unfold triStep1
    rw [if_neg hno, if_pos hon]
  · intro hno hon
    unfold triStep2
    rw [if_neg hno]
    by_cases hl : (triStep1 d1 d2 v1 v2).length = 0
    · rw [if_pos ⟨hon, hl⟩]
      simp [hl]
    · rw [if_neg (fun hc => hl hc.2)]
      constructor
      · intro hcontra
        exact absurd hcontra.symm (by simp)
      · intro hc
        exact absurd hc hl
  · intro hno hon
    unfold triStep3
    rw [if_neg hno]
    by_cases hl : (triStep2 (triStep1 d1 d2 v1 v2) d2 d3 v2 v3).length < 2
    · rw [if_pos ⟨hon, hl⟩]
      simp [hl]
    · rw [if_neg (fun hc => hl hc.2)]
      constructor
      · intro hcontra
        exact absurd hcontra.symm (by simp)
      · intro hc
        exact absurd hc hl

/-- Witness for C2: instantiating the amended theorem at the concrete
counterexample triangle and discharging its hypotheses. -/
theorem C2_on_plane_vertex_recording_witness :
    (¬ sDist c2v2 c2pp c2n * sDist c2v3 c2pp c2n < 0) ∧
    |sDist c2v2 c2pp c2n| < eps10 ∧
    (c2I2 = c2I1 ++ [c2v2] ↔ c2I1.length = 0) := by
  refine ⟨by with_unfolding_all decide, by with_unfolding_all decide, ?_⟩
  exact (C2_on_plane_vertex_recording (sDist c2v1 c2pp c2n) (sDist c2v2 c2pp c2n)
    (sDist c2v3 c2pp c2n) c2v1 c2v2 c2v3).2.1 (by with_unfolding_all decide)
    (by with_unfolding_all decide)

/-! ### C3: segment conservation -/

/-- A single segment: it survives deduplication but its traced loop has only
2 points and is discarded. -/
abbrev c3segs : List Seg := [(⟨0, 0, 0⟩, ⟨1, 0, 0⟩)]

/-- C3 counterexample: with a single input segment, deduplication keeps 1
segment, but the loop traced from it has only 2 points and is discarded, so
the sum of segments consumed by the *produced* loops is 0, not 1. -/
theorem C3_counterexample :
    ¬ (List.sum (List.map (fun t => t.consumed)
          (List.filter (fun t => decide (3 ≤ t.points.length))
            (buildLoops (deduplicateSegments c3segs tolQ)
              (deduplicateSegments c3segs tolQ).length []))) =
        (deduplicateSegments c3segs tolQ).length) := by with_unfolding_all decide

/-! ### C3 (amended): conservation across all traced loops -/

lemma findContAux_some (used : List ℕ) (k : Key) :
    ∀ (l : List Seg) (i0 i : ℕ) (p : Vec3 ℚ) (k2 : Key),
      findContAux used k l i0 = some (i, p, k2) → i0 ≤ i ∧ i < i0 + l.length ∧ i ∉ used := by
  intro l
  induction l with
  | nil =>
    intro i0 i p k2 h
    simp [findContAux] at h
  | cons seg rest ih =>
    intro i0 i p k2 h
    rw [findContAux] at h
    split at h
    · rename_i hcond
      split at h <;> (cases h; exact ⟨le_refl i0, by simp, hcond.1⟩)
    · obtain ⟨h1, h2, h3⟩ := ih (i0 + 1) i p k2 h
      refine ⟨by omega, ?_, h3⟩
      simp only [List.length_cons]
      omega

lemma findCont_some {segs : List Seg} {used : List ℕ} {k : Key} {i : ℕ} {p : Vec3 ℚ}
    {k2 : Key} (h : findCont segs used k = some (i, p, k2)) : i < segs.length ∧ i ∉ used := by
  obtain ⟨_, h2, h3⟩ := findContAux_some used k segs 0 i p k2 h
  exact ⟨by omega, h3⟩

lemma traceF_used (segs : List Seg) :
    ∀ (fuel : ℕ) (used : List ℕ) (k : Key) (acc : List (Vec3 ℚ)),
      ∃ ext : List ℕ, (traceF segs fuel used k acc).2 = ext ++ used ∧ ext.Nodup ∧
        ∀ j ∈ ext, j < segs.length ∧ j ∉ used := by
  intro fuel
  induction fuel with
  | zero =>
    intro used k acc
    exact ⟨[], rfl, List.nodup_nil, by simp⟩
  | succ n ih =>
    intro used k acc
    rw [traceF]
    cases hfc : findCont segs used k with
    | none => exact ⟨[], rfl, List.nodup_nil, by simp⟩
    | some t =>
      obtain ⟨i, p, k2⟩ := t
      obtain ⟨hi, hni⟩ := findCont_some hfc
      obtain ⟨ext, he, hnd, hmem⟩ := ih (i :: used) k2 (acc ++ [p])
      refine ⟨ext ++ [i], ?_, ?_, ?_⟩
      · rw [he, List.append_assoc, List.singleton_append]
      · refine List.Nodup.append hnd (List.nodup_singleton i) ?_
        intro a ha hb
        rw [List.mem_singleton] at hb
        subst hb
        exact (hmem a ha).2 (List.mem_cons_self a used)
      · intro j hj
        rcases List.mem_append.mp hj with hj | hj
        · exact ⟨(hmem j hj).1, fun hju => (hmem j hj).2 (List.mem_cons_of_mem _ hju)⟩
        · rw [List.mem_singleton] at hj
          subst hj
          exact ⟨hi, hni⟩

lemma traceB_used (segs : List Seg) :
    ∀ (fuel : ℕ) (used : List ℕ) (k : Key) (acc : List (Vec3 ℚ)),
      ∃ ext : List ℕ, (traceB segs fuel used k acc).2 = ext ++ used ∧ ext.Nodup ∧
        ∀ j ∈ ext, j < segs.length ∧ j ∉ used := by
  intro fuel
  induction fuel with
  | zero =>
    intro used k acc
    exact ⟨[], rfl, List.nodup_nil, by simp⟩
  | succ n ih =>
    intro used k acc
    rw [traceB]
    cases hfc : findCont segs used k with
    | none => exact ⟨[], rfl, List.nodup_nil, by simp⟩
    | some t =>
      obtain ⟨i, p, k2⟩ := t
      obtain ⟨hi, hni⟩ := findCont_some hfc
      obtain ⟨ext, he, hnd, hmem⟩ := ih (i :: used) k2 (p :: acc)
      refine ⟨ext ++ [i], ?_, ?_, ?_⟩
      · rw [he, List.append_assoc, List.singleton_append]
      · refine List.Nodup.append hnd (List.nodup_singleton i) ?_
        intro a ha hb
        rw [List.mem_singleton] at hb
        subst hb
        exact (hmem a ha).2 (List.mem_cons_self a used)
      · intro j hj
        rcases List.mem_append.mp hj with hj | hj
        · exact ⟨(hmem j hj).1, fun hju => (hmem j hj).2 (List.mem_cons_of_mem _ hju)⟩
        · rw [List.mem_singleton] at hj
          subst hj
          exact ⟨hi, hni⟩

lemma traceLoop_used (segs : List Seg) (used : List ℕ) (i : ℕ)
    (hi : i < segs.length) (hni : i ∉ used) :
    ∃ ext : List ℕ, (traceLoop segs used i).2 = ext ++ used ∧ ext.Nodup ∧
      (∀ j ∈ ext, j < segs.length ∧ j ∉ used) ∧ 1 ≤ ext.length := by
  obtain ⟨e1, he1, hnd1, hm1⟩ := traceF_used segs segs.length (i :: used)
    (pointKey tolQ (segs.getD i dfltSeg).2) [(segs.getD i dfltSeg).1, (segs.getD i dfltSeg).2]
  obtain ⟨e2, he2, hnd2, hm2⟩ := traceB_used segs segs.length
    (traceF segs segs.length (i :: used) (pointKey tolQ (segs.getD i dfltSeg).2)
      [(segs.getD i dfltSeg).1, (segs.getD i dfltSeg).2]).2
    (pointKey tolQ (segs.getD i dfltSeg).1)
    (traceF segs segs.length (i :: used) (pointKey tolQ (segs.getD i dfltSeg).2)
      [(segs.getD i dfltSeg).1, (segs.getD i dfltSeg).2]).1
  have hTL : (traceLoop segs used i).2 =
      (traceB segs segs.length
        (traceF segs segs.length (i :: used) (pointKey tolQ (segs.getD i dfltSeg).2)
          [(segs.getD i dfltSeg).1, (segs.getD i dfltSeg).2]).2
        (pointKey tolQ (segs.getD i dfltSeg).1)
        (traceF segs segs.length (i :: used) (pointKey tolQ (segs.getD i dfltSeg).2)
          [(segs.getD i dfltSeg).1, (segs.getD i dfltSeg).2]).1).2 := rfl
  rw [he1] at hm2
  refine ⟨e2 ++ (e1 ++ [i]), ?_, ?_, ?_, ?_⟩
  · rw [hTL, he2, he1]
    simp [List.append_assoc]
  · refine List.Nodup.append hnd2 ?_ ?_
    · refine List.Nodup.append hnd1 (List.nodup_singleton i) ?_
      intro a ha hb
      rw [List.mem_singleton] at hb
      subst hb
      exact (hm1 a ha).2 (List.mem_cons_self a used)
    · intro a ha hb
      have h2 := (hm2 a ha).2
      rcases List.mem_append.mp hb with hb | hb
      · exact h2 (by rw [List.mem_append]; exact Or.inl hb)
      · rw [List.mem_singleton] at hb
        subst hb
        exact h2 (by rw [List.mem_append]; exact Or.inr (List.mem_cons_self a used))
  · intro j hj
    rcases List.mem_append.mp hj with hj | hj
    · have h2 := (hm2 j hj).2
      exact ⟨(hm2 j hj).1, fun hju =>
        h2 (by rw [List.mem_append]; exact Or.inr (List.mem_cons_of_mem _ hju))⟩
    · rcases List.mem_append.mp hj with hj | hj
      · exact ⟨(hm1 j hj).1, fun hju => (hm1 j hj).2 (List.mem_cons_of_mem _ hju)⟩
      · rw [List.mem_singleton] at hj
        subst hj
        exact ⟨hi, hni⟩
  · have : i ∈ e2 ++ (e1 ++ [i]) := by simp
    have hne : e2 ++ (e1 ++ [i]) ≠ [] := List.ne_nil_of_mem this
    have := List.length_pos.mpr hne
    omega

lemma nodup_bound (n : ℕ) (l : List ℕ) (hnd : l.Nodup) (hb : ∀ j ∈ l, j < n) :
    l.length ≤ n := by
  have h1 : l.toFinset.card = l.length := List.toFinset_card_of_nodup hnd
  have h2 : l.toFinset ⊆ Finset.range n := by
    intro a ha
    rw [List.mem_toFinset] at ha
    exact Finset.mem_range.mpr (hb a ha)
  have h3 := Finset.card_le_card h2
  rw [h1, Finset.card_range] at h3
  exact h3

lemma firstUnused_none {segs : List Seg} {used : List ℕ}
    (h : firstUnused segs used = none) : ∀ i < segs.length, i ∈ used := by
  intro i hi
  have := List.find?_eq_none.mp h i (List.mem_range.mpr hi)
  simpa using this

lemma firstUnused_some {segs : List Seg} {used : List ℕ} {i : ℕ}
    (h : firstUnused segs used = some i) : i < segs.length ∧ i ∉ used := by
  have h1 := List.mem_range.mp (List.mem_of_find?_eq_some h)
  have h2 := List.find?_some h
  simp at h2
  exact ⟨h1, h2⟩

lemma buildLoops_consumed_sum (segs : List Seg) :
    ∀ (fuel : ℕ) (used : List ℕ), used.Nodup → (∀ j ∈ used, j < segs.length) →
      segs.length - used.length ≤ fuel →
      ((buildLoops segs fuel used).map fun t => t.consumed).sum =
        segs.length - used.length := by
  intro fuel
  induction fuel with
  | zero =>
    intro used _ _ hle
    rw [buildLoops]
    simp only [List.map_nil, List.sum_nil]
    omega
  | succ n ih =>
    intro used hnd hb hle
    rw [buildLoops]
    cases hfu : firstUnused segs used with
    | none =>
      have hcov := firstUnused_none hfu
      have hsub : Finset.range segs.length ⊆ used.toFinset := by
        intro a ha
        rw [List.mem_toFinset]
        exact hcov a (Finset.mem_range.mp ha)
      have hlen : segs.length ≤ used.length := by
        have := Finset.card_le_card hsub
        rwa [Finset.card_range, List.toFinset_card_of_nodup hnd] at this
      simp only [List.map_nil, List.sum_nil]
      omega
    | some i =>
      obtain ⟨hi, hni⟩ := firstUnused_some hfu
      obtain ⟨ext, he, hndx, hbx, hne⟩ := traceLoop_used segs used i hi hni
      have hlen2 : (traceLoop segs used i).2.length = ext.length + used.length := by
        rw [he, List.length_append]
      have hnd2 : (traceLoop segs used i).2.Nodup := by
        rw [he]
        exact hndx.append hnd (fun a ha hb2 => (hbx a ha).2 hb2)
      have hb2 : ∀ j ∈ (traceLoop segs used i).2, j < segs.length := by
        intro j hj
        rw [he, List.mem_append] at hj
        rcases hj with hj | hj
        · exact (hbx j hj).1
        · exact hb j hj
      have hub : (traceLoop segs used i).2.length ≤ segs.length :=
        nodup_bound _ _ hnd2 hb2
      have hrec := ih (traceLoop segs used i).2 hnd2 hb2 (by omega)
      simp only [List.map_cons, List.sum_cons, hrec]
      omega

/-- Claim C3 (amended): across all traced loops -- including those discarded
for having fewer than 3 points -- the loop assembler consumes every
deduplicated segment exactly once: the per-loop consumed counts sum to the
deduplicated segment count.  (Restricted to the loops actually returned the
sum can be smaller, because discarded loops consume segments too; see the
counterexample.) -/
theorem C3_segment_conservation (segments : List Seg) :
    ((buildLoops (deduplicateSegments segments tolQ)
          (deduplicateSegments segments tolQ).length []).map fun t => t.consumed).sum =
      (deduplicateSegments segments tolQ).length := by
  have h := buildLoops_consumed_sum (deduplicateSegments segments tolQ)
    (deduplicateSegments segments tolQ).length [] List.nodup_nil (by simp) (by simp)
  simpa using h

/-! ### C6: welding idempotence -/

/-- All unique points discovered by the deduplicator are pairwise at least
`tolerance` apart (stated on squared distances). -/
def Separated (tolerance : ℚ) (ups : List (Vec3 ℚ)) : Prop :=
  List.Pairwise (fun a b => tolerance ^ 2 ≤ Vec3.dist2 a b) ups

lemma dist2_comm (a b : Vec3 ℚ) : Vec3.dist2 a b = Vec3.dist2 b a := by
  rcases a with ⟨a1, a2, a3⟩
  rcases b with ⟨b1, b2, b3⟩
  simp only [Vec3.dist2, Vec3.dot, Vec3.sub]
  ring

lemma separated_eq {tol : ℚ} {P : List (Vec3 ℚ)} (hs : Separated tol P)
    {a b : Vec3 ℚ} (ha : a ∈ P) (hb : b ∈ P) (hd : Vec3.dist2 a b < tol ^ 2) : a = b := by
  by_contra hne
  have hsym : Symmetric fun a b : Vec3 ℚ => tol ^ 2 ≤ Vec3.dist2 a b := by
    intro x y h
    rwa [dist2_comm]
  have hR := List.Pairwise.forall hsym hs ha hb hne
  linarith

lemma findOrAddPoint_sep {tol : ℚ} {ups : List (Vec3 ℚ)} (hs : Separated tol ups)
    (p : Vec3 ℚ) :
    Separated tol (findOrAddPoint tol ups p).2 ∧
    (findOrAddPoint tol ups p).1 ∈ (findOrAddPoint tol ups p).2 ∧
    ups ⊆ (findOrAddPoint tol ups p).2 := by
  cases hf : ups.find? (fun up => decide (Vec3.dist2 up p < tol ^ 2)) with
  | some up =>
    simp only [findOrAddPoint, hf]
    exact ⟨hs, List.mem_of_find?_eq_some hf, List.Subset.refl ups⟩
  | none =>
    simp only [findOrAddPoint, hf]
    refine ⟨?_, by simp, List.subset_append_left ups [p]⟩
    unfold Separated
    rw [List.pairwise_append]
    refine ⟨hs, List.pairwise_singleton _ p, ?_⟩
    intro a ha b hb
    rw [List.mem_singleton] at hb
    subst hb
    have h1 := List.find?_eq_none.mp hf a ha
    simp only [decide_eq_true_eq] at h1
    exact not_lt.mp h1

lemma dedupAux_props (tol : ℚ) :
    ∀ (S : List Seg) (ups : List (Vec3 ℚ)), Separated tol ups →
      ∃ P : List (Vec3 ℚ), Separated tol P ∧ ups ⊆ P ∧
        ∀ s ∈ dedupAux tol S ups, s.1 ∈ P ∧ s.2 ∈ P ∧ s.1 ≠ s.2 := by
  intro S
  induction S with
  | nil =>
    intro ups hs
    exact ⟨ups, hs, List.Subset.refl ups, by simp [dedupAux]⟩
  | cons seg rest ih =>
    obtain ⟨p1, p2⟩ := seg
    intro ups hs
    obtain ⟨h1s, h1m, h1sub⟩ := findOrAddPoint_sep hs p1
    obtain ⟨h2s, h2m, h2sub⟩ := findOrAddPoint_sep h1s p2
    obtain ⟨P, hPs, hPsub, hPmem⟩ :=
      ih (findOrAddPoint tol (findOrAddPoint tol ups p1).2 p2).2 h2s
    refine ⟨P, hPs, (h1sub.trans h2sub).trans hPsub, ?_⟩
    intro s hsmem
    rw [dedupAux] at hsmem
    split at hsmem
    · exact hPmem s hsmem
    · rename_i hne
      rcases List.mem_cons.mp hsmem with heq | hsmem
      · subst heq
        exact ⟨hPsub (h2sub h1m), hPsub h2m, hne⟩
      · exact hPmem s hsmem

lemma dedupAux_id (tol : ℚ) (_htol : 0 < tol) (P : List (Vec3 ℚ)) (hPs : Separated tol P) :
    ∀ (S : List Seg) (ups : List (Vec3 ℚ)), ups ⊆ P →
      (∀ s ∈ S, s.1 ∈ P ∧ s.2 ∈ P ∧ s.1 ≠ s.2) →
      dedupAux tol S ups = S := by
  have key : ∀ (u : List (Vec3 ℚ)) (q : Vec3 ℚ), u ⊆ P → q ∈ P →
      (findOrAddPoint tol u q).1 = q ∧ (findOrAddPoint tol u q).2 ⊆ P := by
    intro u q hu hq
    cases hf : u.find? (fun up => decide (Vec3.dist2 up q < tol ^ 2)) with
    | some up =>
      have h1 : (findOrAddPoint tol u q).1 = up := by simp only [findOrAddPoint, hf]
      have h2 : (findOrAddPoint tol u q).2 = u := by simp only [findOrAddPoint, hf]
      have hmem := List.mem_of_find?_eq_some hf
      have hpred := List.find?_some hf
      simp only [decide_eq_true_eq] at hpred
      refine ⟨?_, by rw [h2]; exact hu⟩
      rw [h1]
      exact separated_eq hPs (hu hmem) hq hpred
    | none =>
      have h1 : (findOrAddPoint tol u q).1 = q := by simp only [findOrAddPoint, hf]
      have h2 : (findOrAddPoint tol u q).2 = u ++ [q] := by simp only [findOrAddPoint, hf]
      refine ⟨h1, ?_⟩
      rw [h2]
      intro a ha
      rcases List.mem_append.mp ha with ha | ha
      · exact hu ha
      · rw [List.mem_singleton] at ha
        subst ha
        exact hq
  intro S
  induction S with
  | nil =>
    intro ups _ _
    rfl
  | cons seg rest ih =>
    obtain ⟨p1, p2⟩ := seg
    intro ups hup hS
    obtain ⟨hp1, hp2, hne⟩ := hS (p1, p2) (List.mem_cons_self _ _)
    obtain ⟨hk1, hk1sub⟩ := key ups p1 hup hp1
    obtain ⟨hk2, hk2sub⟩ := key (findOrAddPoint tol ups p1).2 p2 hk1sub hp2
    rw [dedupAux]
    rw [hk1, hk2, if_neg hne]
    rw [ih (findOrAddPoint tol (findOrAddPoint tol ups p1).2 p2).2 hk2sub
      (fun s hsm => hS s (List.mem_cons_of_mem _ hsm))]

/-- Claim C6: the segment deduplicator is idempotent at its tolerance 1e-4:
running it on its own output returns the same list of segments. -/
theorem C6_deduplicate_idempotent (segments : List Seg) :
    deduplicateSegments (deduplicateSegments segments tolQ) tolQ =
      deduplicateSegments segments tolQ := by
  obtain ⟨P, hPs, _, hmem⟩ := dedupAux_props tolQ segments [] List.Pairwise.nil
  unfold deduplicateSegments
  exact dedupAux_id tolQ (by norm_num [tolQ]) P hPs (dedupAux tolQ segments [])
    [] (List.nil_subset P) hmem

/-! ### C9: behaviour under positive rescaling of the plane normal -/

lemma sDist_smul (v planePoint planeNormal : Vec3 ℚ) (c : ℚ) :
    sDist v planePoint (Vec3.smul c planeNormal) = c * sDist v planePoint planeNormal := by
  rcases v with ⟨a1, a2, a3⟩
  rcases planePoint with ⟨b1, b2, b3⟩
  rcases planeNormal with ⟨n1, n2, n3⟩
  simp only [sDist, Vec3.dot, Vec3.sub, Vec3.smul]
  ring

lemma mul_scale_neg_iff (c x y : ℚ) (hc : 0 < c) : c * x * (c * y) < 0 ↔ x * y < 0 := by
  rw [show c * x * (c * y) = c ^ 2 * (x * y) by ring]
  constructor
  · intro h
    by_contra hnot
    push_neg at hnot
    nlinarith
  · intro h
    exact mul_neg_of_pos_of_neg (by positivity) h

lemma lerp_scale (va vb : Vec3 ℚ) (d e c : ℚ) (hc : c ≠ 0) :
    Vec3.lerp va vb (c * d / (c * d - c * e)) = Vec3.lerp va vb (d / (d - e)) := by
  rw [show c * d - c * e = c * (d - e) by ring, mul_div_mul_left d (d - e) hc]

lemma triStep1_scale (c d1 d2 : ℚ) (hc : 0 < c) (v1 v2 : Vec3 ℚ)
    (h1 : |d1| < eps10 ↔ |c * d1| < eps10) :
    triStep1 (c * d1) (c * d2) v1 v2 = triStep1 d1 d2 v1 v2 := by
  unfold triStep1
  by_cases hlt : d1 * d2 < 0
  · rw [if_pos ((mul_scale_neg_iff c d1 d2 hc).mpr hlt), if_pos hlt,
      lerp_scale v1 v2 d1 d2 c hc.ne']
  · rw [if_neg (fun hx => hlt ((mul_scale_neg_iff c d1 d2 hc).mp hx)), if_neg hlt]
    by_cases habs : |d1| < eps10
    · rw [if_pos (h1.mp habs), if_pos habs]
    · rw [if_neg (fun hx => habs (h1.mpr hx)), if_neg habs]

lemma triStep2_scale (acc : List (Vec3 ℚ)) (c d2 d3 : ℚ) (hc : 0 < c) (v2 v3 : Vec3 ℚ)
    (h2 : |d2| < eps10 ↔ |c * d2| < eps10) :
    triStep2 acc (c * d2) (c * d3) v2 v3 = triStep2 acc d2 d3 v2 v3 := by
  unfold triStep2
  by_cases hlt : d2 * d3 < 0
  · rw [if_pos ((mul_scale_neg_iff c d2 d3 hc).mpr hlt), if_pos hlt,
      lerp_scale v2 v3 d2 d3 c hc.ne']
  · rw [if_neg (fun hx => hlt ((mul_scale_neg_iff c d2 d3 hc).mp hx)), if_neg hlt]
    by_cases habs : |d2| < eps10 ∧ acc.length = 0
    · rw [if_pos ⟨h2.mp habs.1, habs.2⟩, if_pos habs]
    · rw [if_neg (fun hx => habs ⟨h2.mpr hx.1, hx.2⟩), if_neg habs]

lemma triStep3_scale (acc : List (Vec3 ℚ)) (c d3 d1 : ℚ) (hc : 0 < c) (v3 v1 : Vec3 ℚ)
    (h3 : |d3| < eps10 ↔ |c * d3| < eps10) :
    triStep3 acc (c * d3) (c * d1) v3 v1 = triStep3 acc d3 d1 v3 v1 := by
  unfold triStep3
  by_cases hlt : d3 * d1 < 0
  · rw [if_pos ((mul_scale_neg_iff c d3 d1 hc).mpr hlt), if_pos hlt,
      lerp_scale v3 v1 d3 d1 c hc.ne']
  · rw [if_neg (fun hx => hlt ((mul_scale_neg_iff c d3 d1 hc).mp hx)), if_neg hlt]
    by_cases habs : |d3| < eps10 ∧ acc.length < 2
    · rw [if_pos ⟨h3.mp habs.1, habs.2⟩, if_pos habs]
    · rw [if_neg (fun hx => habs ⟨h3.mpr hx.1, hx.2⟩), if_neg habs]

lemma processTriangle_scale (v1 v2 v3 planePoint planeNormal : Vec3 ℚ) (c : ℚ) (hc : 0 < c)
    (h1 : |sDist v1 planePoint planeNormal| < eps10 ↔
      |c * sDist v1 planePoint planeNormal| < eps10)
    (h2 : |sDist v2 planePoint planeNormal| < eps10 ↔
      |c * sDist v2 planePoint planeNormal| < eps10)
    (h3 : |sDist v3 planePoint planeNormal| < eps10 ↔
      |c * sDist v3 planePoint planeNormal| < eps10) :
    processTriangle v1 v2 v3 planePoint (Vec3.smul c planeNormal) =
      processTriangle v1 v2 v3 planePoint planeNormal := by
  unfold processTriangle triangleIntersections
  rw [sDist_smul v1 planePoint planeNormal c, sDist_smul v2 planePoint planeNormal c,
    sDist_smul v3 planePoint planeNormal c,
    triStep1_scale c _ _ hc v1 v2 h1, triStep2_scale _ c _ _ hc v2 v3 h2,
    triStep3_scale _ c _ _ hc v3 v1 h3]

lemma filterMap_congr_mem {α β : Type} (l : List α) (f g : α → Option β)
    (h : ∀ a ∈ l, f a = g a) : l.filterMap f = l.filterMap g := by
  induction l with
  | nil => rfl
  | cons a rest ih =>
    rw [List.filterMap_cons, List.filterMap_cons, h a (List.mem_cons_self a rest),
      ih (fun b hb => h b (List.mem_cons_of_mem a hb))]

lemma meshSegments_scale (positions : List (Vec3 ℚ)) (indices : Option (List ℕ))
    (planePoint planeNormal : Vec3 ℚ) (c : ℚ) (hc : 0 < c)
    (heps : ∀ d ∈ vertexDistances positions indices planePoint planeNormal,
      (|d| < eps10 ↔ |c * d| < eps10)) :
    meshSegments positions indices planePoint (Vec3.smul c planeNormal) =
      meshSegments positions indices planePoint planeNormal := by
  unfold meshSegments
  apply filterMap_congr_mem
  intro t ht
  apply processTriangle_scale t.1 t.2.1 t.2.2 planePoint planeNormal c hc
  · apply heps
    unfold vertexDistances
    rw [List.mem_flatMap]
    exact ⟨t, ht, by simp⟩
  · apply heps
    unfold vertexDistances
    rw [List.mem_flatMap]
    exact ⟨t, ht, by simp⟩
  · apply heps
    unfold vertexDistances
    rw [List.mem_flatMap]
    exact ⟨t, ht, by simp⟩

/-- Claim C9 (amended): `calculateMeshSection` never normalizes the plane
normal; the crossing-point geometry is invariant under rescaling the normal
by `c > 0`, but the `|d| < 1e-10` on-plane vertex tests are applied to the
unnormalized signed distances.  Rescaling therefore preserves the result
exactly when it does not move any vertex distance across the 1e-10 threshold
(in particular the claimed invariance fails in general; see the
counterexample). -/
theorem C9_mesh_section_scale_invariance (positions : List (Vec3 ℚ))
    (indices : Option (List ℕ)) (planePoint planeNormal : Vec3 ℚ) (c : ℚ) (hc : 0 < c)
    (heps : ∀ d ∈ vertexDistances positions indices planePoint planeNormal,
      (|d| < eps10 ↔ |c * d| < eps10)) :
    calculateMeshSection positions indices planePoint (Vec3.smul c planeNormal) =
      calculateMeshSection positions indices planePoint planeNormal := by
  unfold calculateMeshSection
  rw [meshSegments_scale positions indices planePoint planeNormal c hc heps]

/-- Mesh refuting the claimed unconditional scale invariance: the first
triangle has two vertices at signed distance 1e-12 from the plane z = 0
(inside the 1e-10 band), the other two triangles cross the plane properly. -/
abbrev c9pos : List (Vec3 ℚ) :=
  [⟨0, 0, 1e-12⟩, ⟨2, 2, 1⟩, ⟨0, 1, 1e-12⟩,
   ⟨0, 0, -1⟩, ⟨0, 0, 1⟩, ⟨3, 0, 1⟩,
   ⟨0, 1, -1⟩, ⟨0, 1, 1⟩, ⟨3, -1, 1⟩]

/-- C9 counterexample: scaling the normal (0,0,1) by 1000 moves the 1e-12
distances out of the 1e-10 on-plane band, so the first triangle's segment
disappears: with the unit normal the cut is one closed 3-point loop, with the
scaled normal it is one open loop -- the results differ. -/
theorem C9_counterexample :
    calculateMeshSection c9pos none ⟨0, 0, 0⟩ (Vec3.smul 1000 ⟨0, 0, 1⟩) ≠
      calculateMeshSection c9pos none ⟨0, 0, 0⟩ ⟨0, 0, 1⟩ := by
  with_unfolding_all decide

/-- Two-triangle mesh (all vertex distances ±1) for the C9 witness. -/
abbrev c9wpos : List (Vec3 ℚ) :=
  [⟨0, 0, -1⟩, ⟨0, 0, 1⟩, ⟨3, 0, 1⟩,
   ⟨0, 1, -1⟩, ⟨0, 1, 1⟩, ⟨3, -1, 1⟩]

/-- Witness for C9 (amended): for a mesh whose vertex distances are all ±1,
rescaling the normal by 2 satisfies the threshold-stability hypothesis and
the results agree. -/
theorem C9_mesh_section_scale_invariance_witness :
    (0 < (2 : ℚ) ∧ ∀ d ∈ vertexDistances c9wpos none ⟨0, 0, 0⟩ ⟨0, 0, 1⟩,
      (|d| < eps10 ↔ |2 * d| < eps10)) ∧
    calculateMeshSection c9wpos none ⟨0, 0, 0⟩ (Vec3.smul 2 ⟨0, 0, 1⟩) =
      calculateMeshSection c9wpos none ⟨0, 0, 0⟩ ⟨0, 0, 1⟩ :=
  ⟨⟨by norm_num, by with_unfolding_all decide⟩,
    C9_mesh_section_scale_invariance c9wpos none ⟨0, 0, 0⟩ ⟨0, 0, 1⟩ 2 (by norm_num)
      (by with_unfolding_all decide)⟩

/-! ### C8 and C1: analytic cylinder solver -/

lemma normalize_unit (v : Vec3 ℝ) (h : Vec3.dot v v = 1) : normalize v = v := by
  unfold normalize
  rw [h, Real.sqrt_one]
  rcases v with ⟨a, b, c⟩
  norm_num [Vec3.smul]

/-- Claim C8: when the plane normal is (near-)perpendicular to the cylinder
axis (cosAngle < 0.001), `calculateCylinderSection` returns the empty
`polygon`-tagged fallback result. -/
theorem C8_cylinder_axis_parallel_fallback (cylinderRadius cylinderHeight : ℝ)
    (cylinderAxis planePoint planeNormal : Vec3 ℝ)
    (hc : cosAngleOf cylinderAxis planeNormal < 0.001) :
    calculateCylinderSection cylinderRadius cylinderHeight cylinderAxis planePoint
        planeNormal =
      ⟨[], [], false, CurveType.polygon, none⟩ := by
  unfold calculateCylinderSection
  have h1 : ¬ (0.999 : ℝ) < cosAngleOf cylinderAxis planeNormal := by
    rw [not_lt]
    nlinarith [hc]
  rw [if_neg h1, if_pos hc]

/-- Witness for C8: axis (0,1,0), normal (1,0,0) gives cosAngle = 0 < 0.001
and the empty fallback result. -/
theorem C8_cylinder_axis_parallel_fallback_witness :
    cosAngleOf ⟨0, 1, 0⟩ ⟨1, 0, 0⟩ < 0.001 ∧
    calculateCylinderSection 1 2 ⟨0, 1, 0⟩ ⟨0, 0, 0⟩ ⟨1, 0, 0⟩ =
      ⟨[], [], false, CurveType.polygon, none⟩ := by
  have hcos : cosAngleOf ⟨0, 1, 0⟩ ⟨1, 0, 0⟩ = 0 := by
    unfold cosAngleOf
    rw [normalize_unit ⟨0, 1, 0⟩ (by norm_num [Vec3.dot]),
      normalize_unit ⟨1, 0, 0⟩ (by norm_num [Vec3.dot])]
    norm_num [Vec3.dot]
  have hc : cosAngleOf ⟨0, 1, 0⟩ ⟨1, 0, 0⟩ < 0.001 := by
    rw [hcos]
    norm_num
  exact ⟨hc, C8_cylinder_axis_parallel_fallback 1 2 ⟨0, 1, 0⟩ ⟨0, 0, 0⟩ ⟨1, 0, 0⟩ hc⟩

/-- Claim C1 (code bug): at cylinder radius 1, height 2, axis (0,1,0), plane
point (0,1,0), normal (0,1,0), the solver takes the circle branch, but the
generated points are centred on `axis * (-t) = (0,-1,0)` (line 616 negates t)
instead of the plane/axis intersection (0,1,0): the first generated point
(0,-1,-1) lies at squared distance 5, not radius^2 = 1, from the plane/axis
intersection.  (The code's own comment at line 613 says the centre is the
plane/axis intersection.) -/
theorem C1_circle_center_code_bug :
    (calculateCylinderSection 1 2 ⟨0, 1, 0⟩ ⟨0, 1, 0⟩ ⟨0, 1, 0⟩).curveType =
      CurveType.circle ∧
    planeAxisIntersectionSpec ⟨0, 1, 0⟩ ⟨0, 1, 0⟩ ⟨0, 1, 0⟩ = (⟨0, 1, 0⟩ : Vec3 ℝ) ∧
    (⟨0, -1, -1⟩ : Vec3 ℝ) ∈
      (calculateCylinderSection 1 2 ⟨0, 1, 0⟩ ⟨0, 1, 0⟩ ⟨0, 1, 0⟩).points3D ∧
    Vec3.dist2 (⟨0, -1, -1⟩ : Vec3 ℝ)
        (planeAxisIntersectionSpec ⟨0, 1, 0⟩ ⟨0, 1, 0⟩ ⟨0, 1, 0⟩) ≠ 1 ^ 2 := by
  have hn : normalize (⟨0, 1, 0⟩ : Vec3 ℝ) = ⟨0, 1, 0⟩ :=
    normalize_unit ⟨0, 1, 0⟩ (by norm_num [Vec3.dot])
  have hcos : cosAngleOf ⟨0, 1, 0⟩ ⟨0, 1, 0⟩ = 1 := by
    unfold cosAngleOf
    rw [hn]
    norm_num [Vec3.dot]
  have hbr : calculateCylinderSection 1 2 ⟨0, 1, 0⟩ ⟨0, 1, 0⟩ ⟨0, 1, 0⟩ =
      circleSection 1 ⟨0, 1, 0⟩ ⟨0, 1, 0⟩ ⟨0, 1, 0⟩ := by
    unfold calculateCylinderSection
    rw [hcos, if_pos (by norm_num : (0.999 : ℝ) < 1)]
  have hu : normalize (⟨0, 0, -1⟩ : Vec3 ℝ) = ⟨0, 0, -1⟩ :=
    normalize_unit ⟨0, 0, -1⟩ (by norm_num [Vec3.dot])
  have hv : normalize (⟨-1, 0, 0⟩ : Vec3 ℝ) = ⟨-1, 0, 0⟩ :=
    normalize_unit ⟨-1, 0, 0⟩ (by norm_num [Vec3.dot])
  have hspec : planeAxisIntersectionSpec ⟨0, 1, 0⟩ ⟨0, 1, 0⟩ ⟨0, 1, 0⟩ =
      (⟨0, 1, 0⟩ : Vec3 ℝ) := by
    unfold planeAxisIntersectionSpec
    rw [hn]
    norm_num [Vec3.dot, Vec3.smul]
  have hpts : (circleSection 1 ⟨0, 1, 0⟩ ⟨0, 1, 0⟩ ⟨0, 1, 0⟩).points3D =
      (List.range 64).map (fun (i : ℕ) =>
        Vec3.add (Vec3.add ⟨0, -1, 0⟩
            (Vec3.smul (Real.cos ((i : ℝ) / 64 * (Real.pi * 2)) * 1) ⟨0, 0, -1⟩))
          (Vec3.smul (Real.sin ((i : ℝ) / 64 * (Real.pi * 2)) * 1) ⟨-1, 0, 0⟩)) := by
    simp only [circleSection, hn]
    rw [show Vec3.dot (⟨0, 1, 0⟩ : Vec3 ℝ) ⟨0, 1, 0⟩ = 1 by norm_num [Vec3.dot]]
    rw [show Vec3.dot (⟨0, 1, 0⟩ : Vec3 ℝ) ⟨1, 0, 0⟩ = 0 by norm_num [Vec3.dot]]
    rw [if_neg (by norm_num : ¬ (0.99 : ℝ) < |(0 : ℝ)|)]
    rw [show Vec3.cross (⟨0, 1, 0⟩ : Vec3 ℝ) ⟨1, 0, 0⟩ = ⟨0, 0, -1⟩ by
      norm_num [Vec3.cross]]
    rw [hu]
    rw [show Vec3.cross (⟨0, 1, 0⟩ : Vec3 ℝ) ⟨0, 0, -1⟩ = ⟨-1, 0, 0⟩ by
      norm_num [Vec3.cross]]
    rw [hv]
    rw [show Vec3.smul (-(1 / 1)) (⟨0, 1, 0⟩ : Vec3 ℝ) = ⟨0, -1, 0⟩ by
      norm_num [Vec3.smul]]
  refine ⟨by rw [hbr]; rfl, hspec, ?_, ?_⟩
  · rw [hbr, hpts]
    refine List.mem_map.mpr ⟨0, List.mem_range.mpr (by norm_num), ?_⟩
    norm_num [Vec3.add, Vec3.smul]
  · rw [hspec]
    norm_num [Vec3.dist2, Vec3.dot, Vec3.sub]

/-! ### C4: ellipse branch of the analytic solver -/

lemma dot_self_pos (v : Vec3 ℝ) (h : v ≠ ⟨0, 0, 0⟩) : 0 < Vec3.dot v v := by
  rcases v with ⟨a, b, c⟩
  have hne : ¬ (a = 0 ∧ b = 0 ∧ c = 0) := by
    intro hz
    exact h (by rw [hz.1, hz.2.1, hz.2.2])
  simp only [Vec3.dot]
  rcases lt_or_le 0 (a * a + b * b + c * c) with hp | hp
  · exact hp
  · exfalso
    have ha2 : a * a ≤ 0 := by nlinarith [mul_self_nonneg b, mul_self_nonneg c]
    have hb2 : b * b ≤ 0 := by nlinarith [mul_self_nonneg a, mul_self_nonneg c]
    have hc2 : c * c ≤ 0 := by nlinarith [mul_self_nonneg a, mul_self_nonneg b]
    exact hne ⟨mul_self_eq_zero.mp (le_antisymm ha2 (mul_self_nonneg a)),
      mul_self_eq_zero.mp (le_antisymm hb2 (mul_self_nonneg b)),
      mul_self_eq_zero.mp (le_antisymm hc2 (mul_self_nonneg c))⟩

lemma smul_smul_real (a b : ℝ) (v : Vec3 ℝ) :
    Vec3.smul a (Vec3.smul b v) = Vec3.smul (a * b) v := by
  rcases v with ⟨x1, x2, x3⟩
  simp only [Vec3.smul, Vec3.mk.injEq]
  refine ⟨by ring, by ring, by ring⟩

lemma cross_smul_right (u : Vec3 ℝ) (c : ℝ) (v : Vec3 ℝ) :
    Vec3.cross u (Vec3.smul c v) = Vec3.smul c (Vec3.cross u v) := by
  rcases u with ⟨u1, u2, u3⟩
  rcases v with ⟨v1, v2, v3⟩
  simp only [Vec3.cross, Vec3.smul, Vec3.mk.injEq]
  refine ⟨by ring, by ring, by ring⟩

lemma dot_smul_self (c : ℝ) (v : Vec3 ℝ) :
    Vec3.dot (Vec3.smul c v) (Vec3.smul c v) = c ^ 2 * Vec3.dot v v := by
  rcases v with ⟨x1, x2, x3⟩
  simp only [Vec3.smul, Vec3.dot]
  ring

lemma normalize_smul_pos (c : ℝ) (hc : 0 < c) (v : Vec3 ℝ) :
    normalize (Vec3.smul c v) = normalize v := by
  by_cases hv : v = ⟨0, 0, 0⟩
  · subst hv
    rw [show Vec3.smul c (⟨0, 0, 0⟩ : Vec3 ℝ) = ⟨0, 0, 0⟩ by norm_num [Vec3.smul]]
  · have hd : 0 < Vec3.dot v v := dot_self_pos v hv
    have hs : 0 < Real.sqrt (Vec3.dot v v) := Real.sqrt_pos.mpr hd
    unfold normalize
    rw [dot_smul_self, Real.sqrt_mul (sq_nonneg c), Real.sqrt_sq hc.le, smul_smul_real]
    congr 1
    field_simp

lemma normalize_cross_normalize (n a : Vec3 ℝ) (ha : a ≠ ⟨0, 0, 0⟩) :
    normalize (Vec3.cross n (normalize a)) = normalize (Vec3.cross n a) := by
  have hd : 0 < Vec3.dot a a := dot_self_pos a ha
  have hs : 0 < Real.sqrt (Vec3.dot a a) := Real.sqrt_pos.mpr hd
  have h1 : normalize a = Vec3.smul (1 / Real.sqrt (Vec3.dot a a)) a := rfl
  rw [h1, cross_smul_right,
    normalize_smul_pos (1 / Real.sqrt (Vec3.dot a a)) (by positivity) (Vec3.cross n a)]

lemma cosAngleOf_zero_axis (n : Vec3 ℝ) : cosAngleOf ⟨0, 0, 0⟩ n = 0 := by
  unfold cosAngleOf normalize
  norm_num [Vec3.dot, Vec3.smul]

/-- Specification-side major axis for C4: `normalize(normal x axis)` with the
caller's (unnormalized) axis, as the spec writes it. -/
noncomputable def majorAxisSpec (cylinderAxis planeNormal : Vec3 ℝ) : Vec3 ℝ :=
  normalize (Vec3.cross planeNormal cylinderAxis)

/-- Specification-side minor axis for C4: `normalize(normal x majorAxis)`. -/
noncomputable def minorAxisSpec (cylinderAxis planeNormal : Vec3 ℝ) : Vec3 ℝ :=
  normalize (Vec3.cross planeNormal (majorAxisSpec cylinderAxis planeNormal))

/-- Specification-side major radius for C4: `r / sin(theta)` where theta is
the angle between the unit axis and the unit normal. -/
noncomputable def majorRadiusSpec (cylinderRadius : ℝ) (cylinderAxis planeNormal : Vec3 ℝ) :
    ℝ :=
  cylinderRadius / Real.sin (Real.arccos (cosAngleOf cylinderAxis planeNormal))

/-- Specification-side ellipse points for C4:
`center + cos(phi)*majorRadius*majorAxis + sin(phi)*minorRadius*minorAxis`
for 64 equally spaced phi. -/
noncomputable def ellipsePointsSpec (cylinderRadius : ℝ)
    (cylinderAxis planePoint planeNormal : Vec3 ℝ) : List (Vec3 ℝ) :=
  (List.range 64).map fun (i : ℕ) =>
    Vec3.add
      (Vec3.add planePoint
        (Vec3.smul
          ((Real.cos ((i : ℝ) / 64 * (Real.pi * 2))) *
            majorRadiusSpec cylinderRadius cylinderAxis planeNormal)
          (majorAxisSpec cylinderAxis planeNormal)))
      (Vec3.smul ((Real.sin ((i : ℝ) / 64 * (Real.pi * 2))) * cylinderRadius)
        (minorAxisSpec cylinderAxis planeNormal))

/-- Claim C4: in the band 0.001 <= cosAngle <= 0.999 the solver returns an
ellipse with minor radius r, major radius r / sin(theta), centre the caller's
plane point, major axis normalize(normal x axis), minor axis
normalize(normal x majorAxis), and the 64 parametrized points. -/
theorem C4_cylinder_ellipse_parameters (cylinderRadius cylinderHeight : ℝ)
    (cylinderAxis planePoint planeNormal : Vec3 ℝ)
    (hlo : 0.001 ≤ cosAngleOf cylinderAxis planeNormal)
    (hhi : cosAngleOf cylinderAxis planeNormal ≤ 0.999) :
    calculateCylinderSection cylinderRadius cylinderHeight cylinderAxis planePoint
        planeNormal =
      ⟨ellipsePointsSpec cylinderRadius cylinderAxis planePoint planeNormal,
        [⟨ellipsePointsSpec cylinderRadius cylinderAxis planePoint planeNormal, true⟩],
        true, CurveType.ellipse,
        some ⟨planePoint, majorAxisSpec cylinderAxis planeNormal,
          minorAxisSpec cylinderAxis planeNormal,
          majorRadiusSpec cylinderRadius cylinderAxis planeNormal, cylinderRadius⟩⟩ := by
  have hbr : calculateCylinderSection cylinderRadius cylinderHeight cylinderAxis planePoint
      planeNormal = ellipseSection cylinderRadius cylinderAxis planePoint planeNormal := by
    unfold calculateCylinderSection
    rw [if_neg (not_lt.mpr hhi), if_neg (not_lt.mpr hlo)]
  rw [hbr]
  have ha : cylinderAxis ≠ ⟨0, 0, 0⟩ := by
    intro h
    rw [h, cosAngleOf_zero_axis] at hlo
    norm_num at hlo
  have hmaj : normalize (Vec3.cross planeNormal (normalize cylinderAxis)) =
      majorAxisSpec cylinderAxis planeNormal :=
    normalize_cross_normalize planeNormal cylinderAxis ha
  have hsin : Real.sqrt
      (1 - cosAngleOf cylinderAxis planeNormal * cosAngleOf cylinderAxis planeNormal) =
      Real.sin (Real.arccos (cosAngleOf cylinderAxis planeNormal)) := by
    rw [Real.sin_arccos]
    congr 1
    ring
  unfold ellipseSection
  simp only [hmaj, hsin]
  unfold ellipsePointsSpec majorRadiusSpec minorAxisSpec
  rfl

/-- Witness for C4: axis (0,1,0), normal (0,3,4) gives cosAngle = 3/5 inside
the band; the theorem applies. -/
theorem C4_cylinder_ellipse_parameters_witness :
    (0.001 ≤ cosAngleOf ⟨0, 1, 0⟩ ⟨0, 3, 4⟩ ∧ cosAngleOf ⟨0, 1, 0⟩ ⟨0, 3, 4⟩ ≤ 0.999) ∧
    calculateCylinderSection 2 5 ⟨0, 1, 0⟩ ⟨1, 2, 3⟩ ⟨0, 3, 4⟩ =
      ⟨ellipsePointsSpec 2 ⟨0, 1, 0⟩ ⟨1, 2, 3⟩ ⟨0, 3, 4⟩,
        [⟨ellipsePointsSpec 2 ⟨0, 1, 0⟩ ⟨1, 2, 3⟩ ⟨0, 3, 4⟩, true⟩], true, CurveType.ellipse,
        some ⟨⟨1, 2, 3⟩, majorAxisSpec ⟨0, 1, 0⟩ ⟨0, 3, 4⟩, minorAxisSpec ⟨0, 1, 0⟩ ⟨0, 3, 4⟩,
          majorRadiusSpec 2 ⟨0, 1, 0⟩ ⟨0, 3, 4⟩, 2⟩⟩ := by
  have h25 : Real.sqrt 25 = 5 := by
    rw [show (25 : ℝ) = 5 ^ 2 by norm_num]
    exact Real.sqrt_sq (by norm_num)
  have hcos : cosAngleOf ⟨0, 1, 0⟩ ⟨0, 3, 4⟩ = 3 / 5 := by
    unfold cosAngleOf
    rw [normalize_unit ⟨0, 1, 0⟩ (by norm_num [Vec3.dot])]
    unfold normalize
    rw [show Vec3.dot (⟨0, 3, 4⟩ : Vec3 ℝ) ⟨0, 3, 4⟩ = 25 by norm_num [Vec3.dot], h25]
    rw [show Vec3.dot (⟨0, 1, 0⟩ : Vec3 ℝ) (Vec3.smul (1 / 5) ⟨0, 3, 4⟩) = 3 / 5 by
      norm_num [Vec3.dot, Vec3.smul]]
    rw [abs_of_nonneg (by norm_num : (0 : ℝ) ≤ 3 / 5)]
  exact ⟨⟨by rw [hcos]; norm_num, by rw [hcos]; norm_num⟩,
    C4_cylinder_ellipse_parameters 2 5 ⟨0, 1, 0⟩ ⟨1, 2, 3⟩ ⟨0, 3, 4⟩
      (by rw [hcos]; norm_num) (by rw [hcos]; norm_num)⟩

/-! ### C5: loop point minimum -/

/-- Claim C5: every loop returned by `calculateMeshSection` has at least 3
points; shorter assembled loops are discarded. -/
theorem C5_loops_min_three_points (positions : List (Vec3 ℚ)) (indices : Option (List ℕ))
    (planePoint planeNormal : Vec3 ℚ) (l : SectionLoop ℚ)
    (hl : l ∈ (calculateMeshSection positions indices planePoint planeNormal).loops) :
    3 ≤ l.points.length := by
  unfold calculateMeshSection at hl
  dsimp only at hl
  split at hl
  · simp at hl
  · exact mem_connectSegmentsToLoops_length _ _ hl

/-- Tetrahedron with apex (0,2,0) over the base y = 0, as a non-indexed
triangle soup of its three side faces; the plane y = 1 cuts a triangle. -/
abbrev tetPos : List (Vec3 ℚ) :=
  [⟨0, 0, -1⟩, ⟨1, 0, 1⟩, ⟨0, 2, 0⟩,
   ⟨1, 0, 1⟩, ⟨-1, 0, 1⟩, ⟨0, 2, 0⟩,
   ⟨-1, 0, 1⟩, ⟨0, 0, -1⟩, ⟨0, 2, 0⟩]

/-- The closed 3-point loop cut from `tetPos` by the plane y = 1. -/
abbrev tetLoop : SectionLoop ℚ :=
  ⟨[⟨1/2, 1, 1/2⟩, ⟨0, 1, -1/2⟩, ⟨-1/2, 1, 1/2⟩], true⟩

/-- Witness for C5 at a concrete mesh producing a 3-point closed loop. -/
theorem C5_loops_min_three_points_witness :
    tetLoop ∈ (calculateMeshSection tetPos none ⟨0, 1, 0⟩ ⟨0, 1, 0⟩).loops ∧
    3 ≤ tetLoop.points.length :=
  ⟨by with_unfolding_all decide,
    C5_loops_min_three_points tetPos none ⟨0, 1, 0⟩ ⟨0, 1, 0⟩ tetLoop
      (by with_unfolding_all decide)⟩

/-! ### C7: view projector -/

/-- Claim C7: each view is the stated fixed linear map, and the resulting
extents agree: x-extent of V equals x-extent of H; y-extent of V equals the
y-extents of W and R. -/
theorem C7_projection_maps_and_extents (pts : List (Vec3 ℚ)) :
    projectSectionToView pts ViewPlane.V = (pts.map fun p => (p.x, p.y)) ∧
    projectSectionToView pts ViewPlane.H = (pts.map fun p => (p.x, -p.z)) ∧
    projectSectionToView pts ViewPlane.W = (pts.map fun p => (-p.z, p.y)) ∧
    projectSectionToView pts ViewPlane.R = (pts.map fun p => (p.z, p.y)) ∧
    xExtent (projectSectionToView pts ViewPlane.V) =
      xExtent (projectSectionToView pts ViewPlane.H) ∧
    yExtent (projectSectionToView pts ViewPlane.V) =
      yExtent (projectSectionToView pts ViewPlane.W) ∧
    yExtent (projectSectionToView pts ViewPlane.V) =
      yExtent (projectSectionToView pts ViewPlane.R) := by
  refine ⟨rfl, rfl, rfl, rfl, ?_, ?_, ?_⟩ <;>
    simp [xExtent, yExtent, projectSectionToView, List.map_map, Function.comp_def]

/-! ### C10: mesh path always tagged polygon -/

/-- Claim C10: the mesh path always returns `curveType = polygon` and never
carries `ellipseParams`, on every code path. -/
theorem C10_mesh_section_polygon_no_ellipse (positions : List (Vec3 ℚ))
    (indices : Option (List ℕ)) (planePoint planeNormal : Vec3 ℚ) :
    (calculateMeshSection positions indices planePoint planeNormal).curveType =
      CurveType.polygon ∧
    (calculateMeshSection positions indices planePoint planeNormal).ellipseParams = none := by
  unfold calculateMeshSection
  dsimp only
  split <;> exact ⟨rfl, rfl⟩

end SectionPlane
